import Mathlib

/-!
Shallow embedding of the audit / frontend / dcap components of the
Teaclave repository, together with theorems settling the claims about
them.  Every definition is translated from the Rust source file named in
its doc comment; external library calls (tantivy, sgx FFI) are modelled
by their documented contracts, and one Management-service RPC whose
implementation is not part of the source tree is modelled from the spec
(clearly marked).
-/

namespace Teaclave

/-! ## Audit entry types

From `types/src/audit.rs` (the plain `Entry` held by the frontend buffer
and sent over the wire) and `services/proto/src/teaclave_management_service.rs`
(the proto wire form and the two conversions).
-/

/-- An IPv4 address as four octets (Rust `std::net::Ipv4Addr`). -/
structure Ipv4Addr where
  o0 : Nat
  o1 : Nat
  o2 : Nat
  o3 : Nat
deriving DecidableEq, Repr

/-- `Ipv4Addr::octets` — the four octets as a vector. -/
def Ipv4Addr.octets (ip : Ipv4Addr) : List Nat :=
  [ip.o0, ip.o1, ip.o2, ip.o3]

/-- `Ipv4Addr::UNSPECIFIED` (0.0.0.0). -/
def Ipv4Addr.unspecified : Ipv4Addr :=
  ⟨0, 0, 0, 0⟩

/-- `teaclave_types::Entry` from `types/src/audit.rs`: an audit record
with a microsecond timestamp, source ip, user, message and result. -/
structure Entry where
  microsecond : Int
  ip : Ipv4Addr
  user : String
  message : String
  result : Bool
deriving DecidableEq, Repr

/-- `Default for Entry` from `types/src/audit.rs`. -/
def Entry.defaultEntry : Entry :=
  { microsecond := 0
    ip := Ipv4Addr.unspecified
    user := ""
    message := ""
    result := false }

instance : Inhabited Entry := ⟨Entry.defaultEntry⟩

/-- `EntryBuilder` from `types/src/audit.rs`: each field optional, filled
by the with-style setters below. -/
structure EntryBuilder where
  microsecond : Option Int := none
  ip : Option Ipv4Addr := none
  user : Option String := none
  message : Option String := none
  result : Option Bool := none

/-- `EntryBuilder::new`. -/
def EntryBuilder.new : EntryBuilder := {}

/-- `EntryBuilder::microsecond` (named `withMicrosecond` because the Rust
method shares its name with the field). -/
def EntryBuilder.withMicrosecond (b : EntryBuilder) (m : Int) : EntryBuilder :=
  { b with microsecond := some m }

/-- `EntryBuilder::ip`. -/
def EntryBuilder.withIp (b : EntryBuilder) (ip : Ipv4Addr) : EntryBuilder :=
  { b with ip := some ip }

/-- `EntryBuilder::user`. -/
def EntryBuilder.withUser (b : EntryBuilder) (u : String) : EntryBuilder :=
  { b with user := some u }

/-- `EntryBuilder::message`. -/
def EntryBuilder.withMessage (b : EntryBuilder) (m : String) : EntryBuilder :=
  { b with message := some m }

/-- `EntryBuilder::result`. -/
def EntryBuilder.withResult (b : EntryBuilder) (r : Bool) : EntryBuilder :=
  { b with result := some r }

/-- `EntryBuilder::build`.  In the source an unset `microsecond` falls
back to the current wall clock; the clock reading is passed explicitly
here as `now`. -/
def EntryBuilder.build (b : EntryBuilder) (now : Int) : Entry :=
  { microsecond := b.microsecond.getD now
    ip := b.ip.getD Ipv4Addr.unspecified
    user := b.user.getD ""
    message := b.message.getD ""
    result := b.result.getD false }

/-- The generated wire type `proto::Entry`
(`services/proto/src/teaclave_management_service.rs`): the ip travels as
a byte vector. -/
structure ProtoEntry where
  microsecond : Int
  ip : List Nat
  user : String
  message : String
  result : Bool
deriving DecidableEq, Repr

/-- `impl From<Entry> for proto::Entry`
(`services/proto/src/teaclave_management_service.rs`, lines 80-90). -/
def ProtoEntry.fromEntry (e : Entry) : ProtoEntry :=
  { microsecond := e.microsecond
    ip := e.ip.octets
    user := e.user
    message := e.message
    result := e.result }

/-- `impl TryFrom<proto::Entry> for Entry`
(`services/proto/src/teaclave_management_service.rs`, lines 57-78):
reject unless the ip vector has exactly 4 bytes, then rebuild the entry
through `EntryBuilder` with every field set (the builder clock fallback
is therefore irrelevant; 0 is passed). -/
def Entry.tryFromProto (p : ProtoEntry) : Except String Entry :=
  match p.ip with
  | [a, b, c, d] =>
      .ok ((((((EntryBuilder.new.withMicrosecond p.microsecond).withIp
        ⟨a, b, c, d⟩).withUser p.user).withMessage p.message).withResult
        p.result).build 0)
  | _ => .error "invalid ip length"

/-! ## Frontend audit agent

From `services/frontend/enclave/src/audit.rs`, `AuditAgent::run`
(lines 41-57).  One iteration of the 30-second background loop: the
buffer is drained with `drain(..)`, and when the batch is non-empty
`management.save_logs(batch)` is issued — its `Result` is discarded.
The RPC outcome is the parameter `rpcOk`; the value returned is the pair
(buffer contents after the tick, entries durably delivered by the tick).
-/

def AuditAgent.tick (buffer : List Entry) (rpcOk : Bool) :
    List Entry × List Entry :=
  let logs := buffer
  -- `mutex.drain(..)` empties the shared buffer unconditionally.
  let bufferAfter : List Entry := []
  if logs.isEmpty then
    (bufferAfter, [])
  else
    -- `client.save_logs(request);` — return value ignored, so the batch
    -- is delivered exactly when the RPC succeeds and is never re-queued.
    (bufferAfter, if rpcOk then logs else [])

/-! ## Management audit index (`LogService`)

From `services/management/enclave/src/audit/service.rs`.  The service
stores its own `Entry` type whose timestamp is a tantivy `DateTime`
built with `DateTime::from_timestamp_micros` and whose ip is an
`Ipv6Addr` (v4 addresses arrive through `to_ipv6_compatible`).
-/

/-- An IPv6 address as sixteen octets (Rust `std::net::Ipv6Addr`). -/
abbrev Ipv6Addr : Type := List Nat

/-- `Ipv4Addr::to_ipv6_compatible` — `::a.b.c.d`. -/
def Ipv4Addr.toIpv6Compatible (ip : Ipv4Addr) : Ipv6Addr :=
  [0, 0, 0, 0, 0, 0, 0, 0, 0, 0, 0, 0, ip.o0, ip.o1, ip.o2, ip.o3]

/-- The `Entry` of `services/management/enclave/src/audit/service.rs`
(lines 127-134); `date` is the timestamp in microseconds wrapped by
tantivy's `DateTime`. -/
structure LogEntry where
  date : Int
  ip : Ipv6Addr
  user : String
  message : String
  result : Bool
deriving DecidableEq

/-- `Default for Entry` in the audit service (lines 136-152). -/
def LogEntry.defaultLogEntry : LogEntry :=
  { date := 0
    ip := List.replicate 16 0
    user := ""
    message := ""
    result := false }

instance : Inhabited LogEntry := ⟨LogEntry.defaultLogEntry⟩

/-- Newest-first order on audit entries: `dateGe a b` states that `a`'s
timestamp is at least `b`'s. -/
def dateGe (a b : LogEntry) : Prop := b.date ≤ a.date

instance : DecidableRel dateGe := fun a b =>
  inferInstanceAs (Decidable (b.date ≤ a.date))

instance : IsTotal LogEntry dateGe :=
  ⟨fun a b => le_total b.date a.date⟩

instance : IsTrans LogEntry dateGe :=
  ⟨fun _ _ _ hab hbc => le_trans hbc hab⟩

/-- Model of tantivy's
`TopDocs::with_limit(limit).order_by_fast_field::<DateTime>(date)`
collector applied by `searcher.search` (library contract: the
matching documents ordered by the `date` fast field in descending
order, truncated to `limit`). -/
def topDocsByDateDesc (limit : Nat) (docs : List LogEntry) : List LogEntry :=
  (List.insertionSort dateGe docs).take limit

namespace LogService

/-- `LogService::add_log` (lines 87-95): the committed index is the list
of documents added so far. -/
def add_log (index : List LogEntry) (log : LogEntry) : List LogEntry :=
  index ++ [log]

/-- `LogService::query` (lines 97-124): parse the text query (modelled
as the predicate `sel` produced by tantivy's query parser over the
`message` field), search with the descending-by-date `TopDocs`
collector, and convert each hit back to an `Entry`. -/
def query (index : List LogEntry) (sel : LogEntry → Bool)
    (limit : Nat) : List LogEntry :=
  topDocsByDateDesc limit (index.filter sel)

end LogService

/-! ## KV-backed tantivy directory (`DbDirectory`)

From `services/management/enclave/src/audit/db_directory.rs`.  The
storage service is modelled as an association list from byte-string
keys to blob values; `put` overwrites the value under a key (storage
service contract). -/

/-- The storage service state: key/value blobs. -/
def Store : Type := List (String × List Nat)

/-- `TeaclaveStorageClient::put` — overwrite the blob under `key`. -/
def storePut : Store → String → List Nat → Store
  | [], k, v => [(k, v)]
  | (k', v') :: rest, k, v =>
      if k' = k then (k, v) :: rest else (k', v') :: storePut rest k v

/-- `TeaclaveStorageClient::get` as used by `exists` / `open_read`. -/
def storeGet (s : Store) (k : String) : Option (List Nat) :=
  List.lookup k s

/-- `DB_PREFIX` concatenation: every blob of the index lives under
`tantivy/<filename>` (db_directory.rs lines 38, 128, 147, ...). -/
def dbKey (path : String) : String := "tantivy/" ++ path

namespace DbDirectory

/-- `DbDirectory::write` (lines 127-138): `put` the data under
`tantivy/<path>`. -/
def write (s : Store) (path : String) (data : List Nat) : Store :=
  storePut s (dbKey path) data

/-- `Directory::exists` for `DbDirectory` (lines 170-175): a `get` on
the prefixed key that succeeds. -/
def pathInStore (s : Store) (path : String) : Bool :=
  (storeGet s (dbKey path)).isSome

/-- `Directory::atomic_write` (lines 205-211): store the blob, then
broadcast to the watch router exactly when the path is `meta.json`.
Returns the new store and whether a broadcast was issued. -/
def atomic_write (s : Store) (path : String) (data : List Nat) :
    Store × Bool :=
  (write s path data, path == "meta.json")

/-- `OpenWriteError` (tantivy), restricted to the variant produced
here. -/
inductive OpenWriteError where
  | FileAlreadyExists (path : String)
deriving DecidableEq

/-- `Directory::open_write` (lines 177-192): when the blob already
exists the code first overwrites it with the empty byte string ("force
the creation of the file to mimic the MMap directory") and then fails
with `FileAlreadyExists`; otherwise a fresh in-memory `Cache` writer is
returned (no store effect until its flush). -/
def open_write (s : Store) (path : String) :
    Except OpenWriteError Unit × Store :=
  if pathInStore s path then
    (.error (.FileAlreadyExists path), write s path [])
  else
    (.ok (), s)

end DbDirectory

/-! ## Frontend connection bootstrap

From `services/frontend/enclave/src/lib.rs`, `start_service`.  The
authentication loop (lines 81-95) and the management loop (lines
107-121) are textually identical: `i` starts at `0`; each failed
`endpoint.connect()` runs `ensure!(i < 10, ...)` (so the failure seen
with `i = 10` aborts with an error), increments `i` and sleeps 3
seconds before retrying, while a success breaks out immediately.
`connect k` is the outcome of the `k`-th connection attempt; the result
is the successful attempt index (`none` = `start_service` returns an
error) paired with the total seconds slept. -/

def connectGo (connect : Nat → Bool) : Nat → Nat → Nat → Option Nat × Nat
  | 0, _, slept => (none, slept)
  | fuel + 1, i, slept =>
      if connect i then (some i, slept)
      else if i < 10 then connectGo connect fuel (i + 1) (slept + 3)
      else (none, slept)

/-- The retry loop of `start_service` for one dependent service.  Fuel
`11` is exact: starting from `i = 0` the loop performs at most 11
attempts before the `ensure!` fires. -/
def startServiceConnect (connect : Nat → Bool) : Option Nat × Nat :=
  connectGo connect 11 0 0

/-! ## dcap attestation-report endpoint

From `dcap/src/main.rs`.  The FFI call `sgx_qv_verify_quote` and the
QvE-report hash check are modelled by their outputs, gathered in
`VerifyOutcome`; the request body parsing and base64 decoding of the
`isvEnclaveQuote` field are modelled by their result
(`none` / `some none` / `some (some bytes)`). -/

/-- `sgx_types::Quote3Error`, restricted to the distinction the handler
makes (`ret != Quote3Error::Success`). -/
inductive Quote3Error where
  | Success
  | Other (code : Nat)
deriving DecidableEq

/-- `sgx_types::QlQvResult` — the quote verification statuses. -/
inductive QlQvResult where
  | Ok
  | ConfigNeeded
  | OutOfDate
  | OutOfDateConfigNeeded
  | InvalidSignature
  | Revoked
  | Unspecified
  | SwHardeningNeeded
  | ConfigAndSwHardeningNeeded
  | Max
deriving DecidableEq

/-- Stand-in for `QlQvResult::as_str` of the external `sgx_types`
crate (the exact strings live outside this repository; only the
`Max`-vs-rest distinction is observable in `to_report`). -/
def QlQvResult.asStr : QlQvResult → String
  | .Ok => "OK"
  | .ConfigNeeded => "CONFIG_NEEDED"
  | .OutOfDate => "OUT_OF_DATE"
  | .OutOfDateConfigNeeded => "OUT_OF_DATE_CONFIG_NEEDED"
  | .InvalidSignature => "INVALID_SIGNATURE"
  | .Revoked => "REVOKED"
  | .Unspecified => "UNSPECIFIED"
  | .SwHardeningNeeded => "SW_HARDENING_NEEDED"
  | .ConfigAndSwHardeningNeeded => "CONFIG_AND_SW_HARDENING_NEEDED"
  | .Max => "MAX"

/-- `to_report` (main.rs lines 113-119): panics on `Max` (modelled as
`none`), otherwise `rst.as_str()`. -/
def to_report (rst : QlQvResult) : Option String :=
  match rst with
  | .Max => none
  | r => some r.asStr

/-- Base64 alphabet (RFC 4648, as used by the `base64` crate's
`encode`). -/
def base64Alphabet : List Char :=
  "ABCDEFGHIJKLMNOPQRSTUVWXYZabcdefghijklmnopqrstuvwxyz0123456789+/".toList

def base64Digit (n : Nat) : Char := base64Alphabet.getD n '?'

/-- `base64::encode` over a byte list: groups of three bytes become four
alphabet characters; a trailing group of one or two bytes is padded with
`=`. -/
def base64Encode : List Nat → String
  | [] => ""
  | [b0] =>
      String.mk [base64Digit (b0 / 4), base64Digit (b0 % 4 * 16), '=', '=']
  | [b0, b1] =>
      String.mk [base64Digit (b0 / 4), base64Digit (b0 % 4 * 16 + b1 / 16),
        base64Digit (b1 % 16 * 4), '=']
  | b0 :: b1 :: b2 :: rest =>
      String.mk [base64Digit (b0 / 4), base64Digit (b0 % 4 * 16 + b1 / 16),
        base64Digit (b1 % 16 * 4 + b2 / 64), base64Digit (b2 % 64)]
        ++ base64Encode rest

/-- `QuoteVerificationResult` (main.rs lines 97-100). -/
structure QuoteVerificationResult where
  quote_status : QlQvResult
  isv_enclave_quote : String
deriving DecidableEq

/-- `QuoteVerificationResponse` (main.rs lines 91-95). -/
inductive QuoteVerificationResponse where
  | BadRequest
  | InternalError
  | AcceptedRequest (qvr : QuoteVerificationResult)
deriving DecidableEq

/-- A JSON scalar as produced by the `serde_json::json!` literal in
`to_json`. -/
inductive JsonVal where
  | str (s : String)
  | num (n : Nat)
deriving DecidableEq

/-- `QuoteVerificationResult::to_json` (main.rs lines 121-132) as the
JSON object it builds; the random `id` and the wall-clock `timestamp`
are passed in.  `none` models the `to_report` panic on `Max`. -/
def QuoteVerificationResult.to_json (r : QuoteVerificationResult)
    (idStr ts : String) : Option (List (String × JsonVal)) :=
  (to_report r.quote_status).map fun statusStr =>
    [("id", .str idStr),
     ("version", .num 4),
     ("timestamp", .str ts),
     ("isvEnclaveQuoteStatus", .str statusStr),
     ("isvEnclaveQuoteBody", .str r.isv_enclave_quote)]

/-- Outputs of the `sgx_qv_verify_quote` FFI call plus the QvE-report
hash comparison (main.rs lines 201-245): the return code, the
collateral expiration status it writes, the verification result it
writes, and whether the sha256/report-data check passed. -/
structure VerifyOutcome where
  ret : Quote3Error
  collateral_exp_status : Nat
  quote_verification_result : QlQvResult
  hash_ok : Bool

/-- `verify_quote` (main.rs lines 178-253).  `reqQuote` is the
quote-extraction outcome: `none` when the body is not JSON or
`isvEnclaveQuote` is not a string, `some none` when base64 decoding
fails, `some (some quote)` the decoded bytes.  The handler result is
`none` when the Rust code panics (the unchecked slice `&quote[..432]`
on a quote shorter than 432 bytes), otherwise `some` of the
response. -/
def verify_quote (reqQuote : Option (Option (List Nat)))
    (out : VerifyOutcome) : Option QuoteVerificationResponse :=
  match reqQuote with
  | none => some .BadRequest
  | some none => some .BadRequest
  | some (some quote) =>
      if out.ret ≠ Quote3Error.Success then some .BadRequest
      else if out.collateral_exp_status ≠ 0 then some .BadRequest
      else if out.hash_ok = false then some .InternalError
      else if 432 ≤ quote.length then
        some (.AcceptedRequest
          { quote_status := out.quote_verification_result
            isv_enclave_quote := base64Encode (quote.take 432) })
      else none

/-- The two rocket statuses produced by `respond_to`. -/
inductive HttpStatus where
  | BadRequest
  | InternalServerError
deriving DecidableEq

/-- The signed report produced for an accepted request: the JSON body,
its RSA-PKCS1-SHA256 signature and the percent-encoded signing
certificate header. -/
structure SignedReport where
  body : List (String × JsonVal)
  signature : List Nat
  signingCert : String

/-- `Responder::respond_to` for `QuoteVerificationResponse` (main.rs
lines 134-167): `BadRequest` and `InternalError` answer with the bare
status and build no report; only `AcceptedRequest` serialises and signs
a body (`sign` models `SIGNER.sign`; `none` models the `to_json` panic
on `Max`). -/
def respond_to (resp : QuoteVerificationResponse)
    (sign : List (String × JsonVal) → List Nat) (cert idStr ts : String) :
    Option (Except HttpStatus SignedReport) :=
  match resp with
  | .BadRequest => some (.error .BadRequest)
  | .InternalError => some (.error .InternalServerError)
  | .AcceptedRequest qvr =>
      match qvr.to_json idStr ts with
      | none => none
      | some payload => some (.ok ⟨payload, sign payload, cert⟩)

/-! ## Management `update_input_file` (modelled from the spec) -/

/-- An input-file record (spec §3: `{id, owner, url, file_crypto,
cmac, hash?}`; the id is the repository key). -/
structure InputFile where
  owner : List String
  url : String
  cmac : List Nat
deriving DecidableEq

/-- The input-file repository: minted ids are consecutive naturals
(standing for the fresh `input-<uuid>` external ids), so `nextId`
exceeds every registered id. -/
structure InputFileRepo where
  nextId : Nat
  files : List (Nat × InputFile)

/-- Every registered id was minted earlier than `nextId`. -/
def InputFileRepo.WF (repo : InputFileRepo) : Prop :=
  ∀ p ∈ repo.files, p.1 < repo.nextId

/-- Modelled from the spec: the Management-service handler for
`update_input_file` is not among the source files (only its functional
test `test_update_input_file` in
`tests/functional/enclave/src/frontend_service.rs` is).  Spec §4.4:
"`update_input_file` creates a NEW `input` id; the old id is retained
(immutable history)."  The old record is looked up, a fresh id is
minted, and a record with the new url is registered under the fresh id
while the old entry is kept. -/
def update_input_file (repo : InputFileRepo) (oldId : Nat)
    (newUrl : String) : Option (Nat × InputFileRepo) :=
  match List.lookup oldId repo.files with
  | none => none
  | some f =>
      let newId := repo.nextId
      some (newId,
        { nextId := repo.nextId + 1
          files := (newId, { f with url := newUrl }) :: repo.files })

/-! ## Shared helper lemmas -/

theorem lookup_storePut_self (s : Store) (k : String) (v : List Nat) :
    List.lookup k (storePut s k v) = some v := by
  induction s with
  | nil => simp [storePut, List.lookup]
  | cons p rest ih =>
      obtain ⟨k', v'⟩ := p
      by_cases h : k' = k
      · subst h
        simp [storePut, List.lookup]
      · simp only [storePut, if_neg h, List.lookup]
        have hbeq : (k == k') = false := beq_eq_false_iff_ne.mpr (Ne.symm h)
        simp [hbeq, ih]

theorem lookup_mem {α β : Type} [BEq α] [LawfulBEq α] {l : List (α × β)}
    {k : α} {v : β} (h : List.lookup k l = some v) : (k, v) ∈ l := by
  induction l with
  | nil => simp [List.lookup] at h
  | cons p rest ih =>
      obtain ⟨k', v'⟩ := p
      by_cases hk : k = k'
      · subst hk
        simp [List.lookup] at h
        simp [h]
      · have hbeq : (k == k') = false := beq_eq_false_iff_ne.mpr hk
        simp only [List.lookup, hbeq] at h
        exact List.mem_cons_of_mem _ (ih h)

/-! ## Claim theorems -/

/-- C1 counterexample: a single-entry buffer whose `save_logs` RPC
fails.  The tick leaves the buffer empty (the drained entry is not
retained for the next tick) and delivers nothing, so the entry is lost
— the claim that failed entries are retained and retried is false. -/
theorem auditAgent_failed_tick_loses_entry :
    AuditAgent.tick [Entry.defaultEntry] false = ([], []) ∧
    ([] : List Entry) ≠ [Entry.defaultEntry] := by
  exact ⟨rfl, by simp⟩

/-- C1 (amended): `AuditAgent::run` drains the buffer unconditionally
and discards the result of `save_logs`; after a tick whose RPC fails
the buffer is empty and nothing was delivered — the drained entries are
dropped, not retried. -/
theorem auditAgent_tick_drops_failed_batch (buffer : List Entry) :
    AuditAgent.tick buffer false = ([], []) := by
  cases buffer <;> rfl

/-- C6: `DbDirectory::atomic_write(path, data)` stores `data` under the
key `tantivy/<path>`, and it broadcasts to the subscribed watch
callbacks if and only if `path` is `meta.json`. -/
theorem atomic_write_stores_and_broadcasts_iff_meta
    (s : Store) (path : String) (data : List Nat) :
    storeGet (DbDirectory.atomic_write s path data).1 (dbKey path) = some data ∧
    ((DbDirectory.atomic_write s path data).2 = true ↔ path = "meta.json") := by
  refine ⟨?_, ?_⟩
  · simpa [DbDirectory.atomic_write, DbDirectory.write, storeGet] using
      lookup_storePut_self s (dbKey path) data
  · simp [DbDirectory.atomic_write]

/-- C8: converting an audit `Entry` to the wire type `proto::Entry` and
back succeeds and restores the entry exactly — microsecond, ip, user,
message and result are preserved (the four ip octets serialize to a
4-byte vector, which `TryFrom` accepts). -/
theorem entry_proto_roundtrip (e : Entry) :
    Entry.tryFromProto (ProtoEntry.fromEntry e) = .ok e := by
  cases e with
  | mk ms ip u m r => cases ip; rfl

/-- C9: calling `DbDirectory::open_write` on a path whose blob already
exists returns `FileAlreadyExists`, but first overwrites the stored
blob under `tantivy/<path>` with the empty byte string; whenever the
prior blob was non-empty the stored state is therefore changed by this
error path. -/
theorem open_write_overwrites_existing_blob
    (s : Store) (path : String) (v : List Nat)
    (h : storeGet s (dbKey path) = some v) :
    (DbDirectory.open_write s path).1 =
      .error (.FileAlreadyExists path) ∧
    storeGet (DbDirectory.open_write s path).2 (dbKey path) = some [] ∧
    (v ≠ [] →
      storeGet (DbDirectory.open_write s path).2 (dbKey path) ≠
        storeGet s (dbKey path)) := by
  have hex : DbDirectory.pathInStore s path = true := by
    unfold DbDirectory.pathInStore
    rw [h]
    rfl
  have h1 : storeGet (DbDirectory.open_write s path).2 (dbKey path) =
      some [] := by
    simp [DbDirectory.open_write, hex, DbDirectory.write, storeGet,
      lookup_storePut_self]
  refine ⟨?_, h1, ?_⟩
  · simp [DbDirectory.open_write, hex]
  · intro hv
    rw [h1, h]
    intro heq
    exact hv (Option.some.inj heq).symm

/-- C9 witness: a store holding the one-byte blob `[1]` under
`tantivy/f`. -/
theorem open_write_overwrites_existing_blob_witness :
    (DbDirectory.open_write [("tantivy/f", [1])] "f").1 =
      .error (.FileAlreadyExists "f") ∧
    storeGet (DbDirectory.open_write [("tantivy/f", [1])] "f").2
      (dbKey "f") = some [] ∧
    (([1] : List Nat) ≠ [] →
      storeGet (DbDirectory.open_write [("tantivy/f", [1])] "f").2
        (dbKey "f") ≠
        storeGet [("tantivy/f", [1])] (dbKey "f")) :=
  open_write_overwrites_existing_blob [("tantivy/f", [1])] "f" [1] rfl

/-- C2: every `query(text, limit)` result is newest first — at any two
consecutive positions the earlier entry's timestamp is at least the
later one's — and holds at most `limit` entries. -/
theorem logService_query_newest_first
    (index : List LogEntry) (sel : LogEntry → Bool) (limit : Nat) :
    (LogService.query index sel limit).length ≤ limit ∧
    ∀ i, i + 1 < (LogService.query index sel limit).length →
      ∃ a b, (LogService.query index sel limit)[i]? = some a ∧
        (LogService.query index sel limit)[i + 1]? = some b ∧
        b.date ≤ a.date := by
  have hlen : (LogService.query index sel limit).length ≤ limit := by
    simp only [LogService.query, topDocsByDateDesc, List.length_take]
    exact Nat.min_le_left _ _
  have hsorted : (LogService.query index sel limit).Pairwise dateGe := by
    have hs : (List.insertionSort dateGe (index.filter sel)).Pairwise dateGe :=
      List.sorted_insertionSort dateGe (index.filter sel)
    exact hs.sublist (List.take_sublist limit _)
  refine ⟨hlen, ?_⟩
  intro i h
  have hi : i < (LogService.query index sel limit).length :=
    Nat.lt_of_succ_lt h
  have hrel := List.pairwise_iff_get.mp hsorted ⟨i, hi⟩ ⟨i + 1, h⟩
    (by exact Nat.lt_succ_self i)
  refine ⟨(LogService.query index sel limit).get ⟨i, hi⟩,
    (LogService.query index sel limit).get ⟨i + 1, h⟩, ?_, ?_, hrel⟩
  · simp [List.getElem?_eq_getElem hi]
  · simp [List.getElem?_eq_getElem h]

/-- C2 witness (spec §8 scenario 6): entries appended at microseconds
100, 200, 150; the query returns them as 200, 150, 100. -/
theorem logService_query_newest_first_witness :
    (LogService.query
      [{ LogEntry.defaultLogEntry with date := 100 },
       { LogEntry.defaultLogEntry with date := 200 },
       { LogEntry.defaultLogEntry with date := 150 }]
      (fun _ => true) 10).length ≤ 10 ∧
    ∃ a b, (LogService.query
      [{ LogEntry.defaultLogEntry with date := 100 },
       { LogEntry.defaultLogEntry with date := 200 },
       { LogEntry.defaultLogEntry with date := 150 }]
      (fun _ => true) 10)[0]? = some a ∧
      (LogService.query
      [{ LogEntry.defaultLogEntry with date := 100 },
       { LogEntry.defaultLogEntry with date := 200 },
       { LogEntry.defaultLogEntry with date := 150 }]
      (fun _ => true) 10)[1]? = some b ∧
      b.date ≤ a.date :=
  ⟨(logService_query_newest_first
      [{ LogEntry.defaultLogEntry with date := 100 },
       { LogEntry.defaultLogEntry with date := 200 },
       { LogEntry.defaultLogEntry with date := 150 }]
      (fun _ => true) 10).1,
    (logService_query_newest_first
      [{ LogEntry.defaultLogEntry with date := 100 },
       { LogEntry.defaultLogEntry with date := 200 },
       { LogEntry.defaultLogEntry with date := 150 }]
      (fun _ => true) 10).2 0 (by decide)⟩

/-! ### C3 helper lemmas about the connection retry loop -/

theorem connectGo_some (connect : Nat → Bool) :
    ∀ (fuel i slept j s : Nat),
      connectGo connect fuel i slept = (some j, s) →
      connect j = true ∧ i ≤ j ∧ j ≤ max i 10 ∧
        (∀ k, i ≤ k → k < j → connect k = false) ∧
        s = slept + 3 * (j - i) := by
  intro fuel
  induction fuel with
  | zero => intro i slept j s hgo; simp [connectGo] at hgo
  | succ fuel ih =>
      intro i slept j s hgo
      by_cases hc : connect i = true
      · simp [connectGo, hc] at hgo
        obtain ⟨rfl, rfl⟩ := hgo
        exact ⟨hc, Nat.le_refl _, Nat.le_max_left _ _,
          fun k hk1 hk2 => absurd hk1 (Nat.not_le_of_lt hk2),
          by simp⟩
      · by_cases hi : i < 10
        · have hgo' : connectGo connect fuel (i + 1) (slept + 3) =
              (some j, s) := by
            simpa [connectGo, hc, hi] using hgo
          obtain ⟨h1, h2, h3, h4, h5⟩ := ih (i + 1) (slept + 3) j s hgo'
          refine ⟨h1, Nat.le_of_succ_le h2, ?_, ?_, ?_⟩
          · have : max (i + 1) 10 = 10 := Nat.max_eq_right hi
            calc j ≤ max (i + 1) 10 := h3
              _ = 10 := this
              _ ≤ max i 10 := Nat.le_max_right _ _
          · intro k hk1 hk2
            rcases Nat.eq_or_lt_of_le hk1 with rfl | hk1'
            · simpa using hc
            · exact h4 k hk1' hk2
          · have hij : i < j := Nat.lt_of_succ_le h2
            rw [h5]
            omega
        · simp [connectGo, hc, hi] at hgo


theorem connectGo_none (connect : Nat → Bool) :
    ∀ (fuel i slept s : Nat), i + fuel ≥ 11 → i ≤ 10 →
      connectGo connect fuel i slept = (none, s) →
      (∀ k, i ≤ k → k ≤ 10 → connect k = false) ∧
        s = slept + 3 * (10 - i) := by
  intro fuel
  induction fuel with
  | zero => intro i slept s hfuel hi hgo; omega
  | succ fuel ih =>
      intro i slept s hfuel hi hgo
      by_cases hc : connect i = true
      · simp [connectGo, hc] at hgo
      · by_cases hlt : i < 10
        · have hgo' : connectGo connect fuel (i + 1) (slept + 3) =
              (none, s) := by
            simpa [connectGo, hc, hlt] using hgo
          obtain ⟨h1, h2⟩ := ih (i + 1) (slept + 3) s (by omega) (by omega)
            hgo'
          refine ⟨?_, by omega⟩
          intro k hk1 hk2
          rcases Nat.eq_or_lt_of_le hk1 with rfl | hk1'
          · simpa using hc
          · exact h1 k hk1' hk2
        · have hij : i = 10 := by omega
          subst hij
          simp [connectGo, hc] at hgo
          refine ⟨?_, by omega⟩
          intro k hk1 hk2
          have : k = 10 := by omega
          subst this
          simpa using hc

theorem connectGo_congr (c c' : Nat → Bool)
    (hagree : ∀ k, k ≤ 10 → c k = c' k) :
    ∀ (fuel i slept : Nat), i ≤ 10 →
      connectGo c fuel i slept = connectGo c' fuel i slept := by
  intro fuel
  induction fuel with
  | zero => intro i slept _; rfl
  | succ fuel ih =>
      intro i slept hi
      have hci : c i = c' i := hagree i hi
      by_cases hc : c i = true
      · simp [connectGo, hc, hci ▸ hc]
      · have hc' : c' i = false := by rw [← hci]; simpa using hc
        by_cases hlt : i < 10
        · simp only [connectGo, hc, hc']
          simp only [if_neg (by simp : ¬(false = true)), if_pos hlt]
          exact ih (i + 1) (slept + 3) (by omega)
        · simp [connectGo, hc, hc', hlt]

/-- C3: the `start_service` connection loop for a dependent service
(authentication and management use identical loops) succeeds only
within the first 11 attempts — i.e. at most 10 retries after the first
attempt, each preceded by a 3-second sleep — and once those are
exhausted without a successful connection it returns an error instead
of retrying further: the outcome never depends on any attempt beyond
index 10. -/
theorem start_service_connect_retry_cap (connect : Nat → Bool) :
    (∀ j s, startServiceConnect connect = (some j, s) →
      connect j = true ∧ j ≤ 10 ∧
        (∀ k, k < j → connect k = false) ∧ s = 3 * j) ∧
    (∀ s, startServiceConnect connect = (none, s) →
      (∀ k, k ≤ 10 → connect k = false) ∧ s = 30) ∧
    (∀ connect', (∀ k, k ≤ 10 → connect k = connect' k) →
      startServiceConnect connect = startServiceConnect connect') := by
  refine ⟨?_, ?_, ?_⟩
  · intro j s hgo
    obtain ⟨h1, _, h3, h4, h5⟩ :=
      connectGo_some connect 11 0 0 j s hgo
    exact ⟨h1, by simpa using h3, fun k hk => h4 k (Nat.zero_le _) hk,
      by simpa using h5⟩
  · intro s hgo
    obtain ⟨h1, h2⟩ := connectGo_none connect 11 0 0 s (by omega)
      (by omega) hgo
    exact ⟨fun k hk => h1 k (Nat.zero_le _) hk, by simpa using h2⟩
  · intro connect' hagree
    exact connectGo_congr connect connect' hagree 11 0 0 (by omega)

/-- C3 witness: with every connection attempt failing, the loop stops
with an error after 10 retries (30 seconds of backoff), and in
particular never consults an attempt beyond index 10. -/
theorem start_service_connect_retry_cap_witness :
    (∀ k, k ≤ 10 → (fun _ => false) k = false) ∧ (30 : Nat) = 30 :=
  (start_service_connect_retry_cap (fun _ => false)).2.1 30 rfl

/-- C4: whenever the dcap handler accepts a request, the
`isvEnclaveQuoteBody` field of the JSON it builds is the base64
encoding of exactly the first 432 bytes of the decoded quote (which is
at least 432 bytes long on every accepted path). -/
theorem verify_quote_accepted_body_base64
    (quote : List Nat) (out : VerifyOutcome) (r : QuoteVerificationResult)
    (h : verify_quote (some (some quote)) out =
      some (.AcceptedRequest r))
    (idStr ts : String) (fields : List (String × JsonVal))
    (hj : r.to_json idStr ts = some fields) :
    432 ≤ quote.length ∧
    List.lookup "isvEnclaveQuoteBody" fields =
      some (.str (base64Encode (quote.take 432))) := by
  simp only [verify_quote] at h
  split_ifs at h with h1 h2 h3 h4
  · simp at h
  · simp at h
  · simp at h
  · have hr : r =
        ⟨out.quote_verification_result, base64Encode (quote.take 432)⟩ :=
      (QuoteVerificationResponse.AcceptedRequest.inj
        (Option.some.inj h)).symm
    subst hr
    refine ⟨h4, ?_⟩
    unfold QuoteVerificationResult.to_json at hj
    cases hto : to_report out.quote_verification_result with
    | none => rw [hto] at hj; simp at hj
    | some st =>
        rw [hto] at hj
        simp only [Option.map_some'] at hj
        cases Option.some.inj hj
        rfl

set_option maxRecDepth 4096 in
/-- C4 witness: an all-zero 432-byte quote accepted with status `Ok`. -/
theorem verify_quote_accepted_body_base64_witness :
    432 ≤ (List.replicate 432 0).length ∧
    List.lookup "isvEnclaveQuoteBody"
      [("id", JsonVal.str ""), ("version", JsonVal.num 4),
       ("timestamp", JsonVal.str ""),
       ("isvEnclaveQuoteStatus", JsonVal.str "OK"),
       ("isvEnclaveQuoteBody",
         JsonVal.str (base64Encode ((List.replicate 432 0).take 432)))] =
      some (.str (base64Encode ((List.replicate 432 0).take 432))) :=
  verify_quote_accepted_body_base64 (List.replicate 432 0)
    ⟨Quote3Error.Success, 0, QlQvResult.Ok, true⟩
    ⟨QlQvResult.Ok, base64Encode ((List.replicate 432 0).take 432)⟩
    rfl "" ""
    [("id", JsonVal.str ""), ("version", JsonVal.num 4),
     ("timestamp", JsonVal.str ""),
     ("isvEnclaveQuoteStatus", JsonVal.str "OK"),
     ("isvEnclaveQuoteBody",
       JsonVal.str (base64Encode ((List.replicate 432 0).take 432)))]
    rfl

/-- C5: when `sgx_qv_verify_quote` returns `Success` but writes a
nonzero collateral expiration status, the handler answers `BadRequest`,
and responding with `BadRequest` produces the bare 400 status — no
signed report body is built. -/
theorem verify_quote_expired_collateral_bad_request
    (quote : List Nat) (out : VerifyOutcome)
    (hret : out.ret = Quote3Error.Success)
    (hcoll : out.collateral_exp_status ≠ 0) :
    verify_quote (some (some quote)) out = some .BadRequest ∧
    ∀ (sign : List (String × JsonVal) → List Nat) (cert idStr ts : String),
      respond_to .BadRequest sign cert idStr ts =
        some (.error HttpStatus.BadRequest) := by
  constructor
  · simp [verify_quote, hret, hcoll]
  · intro sign cert idStr ts
    rfl

/-- C5 witness: empty quote, `Success` return, expiration status 1. -/
theorem verify_quote_expired_collateral_bad_request_witness :
    verify_quote (some (some []))
      ⟨Quote3Error.Success, 1, QlQvResult.Ok, true⟩ = some .BadRequest ∧
    ∀ (sign : List (String × JsonVal) → List Nat) (cert idStr ts : String),
      respond_to .BadRequest sign cert idStr ts =
        some (.error HttpStatus.BadRequest) :=
  verify_quote_expired_collateral_bad_request []
    ⟨Quote3Error.Success, 1, QlQvResult.Ok, true⟩ rfl (by decide)

/-- C10: an accepted response requires the decoded quote to be at least
432 bytes (the unchecked slice `&quote[..432]`), and a shorter quote
that passes every preceding check makes the handler panic (modelled as
`none`) instead of returning `BadRequest`. -/
theorem verify_quote_short_quote_panics :
    (∀ (quote : List Nat) (out : VerifyOutcome)
        (r : QuoteVerificationResult),
      verify_quote (some (some quote)) out =
        some (.AcceptedRequest r) → 432 ≤ quote.length) ∧
    (∀ (quote : List Nat) (out : VerifyOutcome),
      out.ret = Quote3Error.Success → out.collateral_exp_status = 0 →
      out.hash_ok = true → quote.length < 432 →
      verify_quote (some (some quote)) out = none) := by
  constructor
  · intro quote out r h
    simp only [verify_quote] at h
    split_ifs at h with h1 h2 h3 h4
    · simp at h
    · simp at h
    · simp at h
    · exact h4
  · intro quote out h1 h2 h3 hlen
    simp [verify_quote, h1, h2, h3, Nat.not_le_of_lt hlen]

/-- C10 witness: the empty quote with a fully successful verification
outcome panics. -/
theorem verify_quote_short_quote_panics_witness :
    verify_quote (some (some []))
      ⟨Quote3Error.Success, 0, QlQvResult.Ok, true⟩ = none :=
  verify_quote_short_quote_panics.2 []
    ⟨Quote3Error.Success, 0, QlQvResult.Ok, true⟩ rfl rfl rfl (by decide)

/-- C7 (modelled from the spec, the Management handler not being in the
source tree): a successful `update_input_file` on a registered input
file returns a freshly minted id distinct from the old one, and the old
id stays registered with its record unchanged. -/
theorem update_input_file_mints_new_id_retains_old
    (repo : InputFileRepo) (oldId : Nat) (newUrl : String)
    (f : InputFile) (hwf : repo.WF)
    (hold : List.lookup oldId repo.files = some f) :
    ∃ newId repo',
      update_input_file repo oldId newUrl = some (newId, repo') ∧
      newId ≠ oldId ∧
      List.lookup oldId repo'.files = some f := by
  have holdlt : oldId < repo.nextId := hwf (oldId, f) (lookup_mem hold)
  have hstep : update_input_file repo oldId newUrl =
      some (repo.nextId,
        { nextId := repo.nextId + 1
          files := (repo.nextId, { f with url := newUrl }) ::
            repo.files }) := by
    unfold update_input_file
    rw [hold]
  refine ⟨repo.nextId, _, hstep, Nat.ne_of_gt holdlt, ?_⟩
  have hne : (oldId == repo.nextId) = false :=
    beq_eq_false_iff_ne.mpr (Nat.ne_of_lt holdlt)
  simp [List.lookup, hne, hold]

/-- C7 witness: a repository holding one input file under id 0 with
`nextId = 1`. -/
theorem update_input_file_mints_new_id_retains_old_witness :
    ∃ newId repo',
      update_input_file ⟨1, [(0, ⟨[], "u", []⟩)]⟩ 0 "u2" =
        some (newId, repo') ∧
      newId ≠ 0 ∧
      List.lookup 0 repo'.files = some ⟨[], "u", []⟩ :=
  update_input_file_mints_new_id_retains_old ⟨1, [(0, ⟨[], "u", []⟩)]⟩
    0 "u2" ⟨[], "u", []⟩
    (by
      intro p hp
      simp only [List.mem_singleton] at hp
      subst hp
      decide)
    rfl

end Teaclave
